import Mathlib

/-!
Verification of the message-processing-and-scheduling pipeline of the
ai-research-companion repository (Supabase edge functions
`whatsapp-webhook/index.ts` and `send-scheduled/index.ts`, plus the SQL
migrations that define the relational schema).

JavaScript strings are modelled as `List Char` (one list element per UTF-16
code unit of the source; all string operations used by the code are
code-unit-wise).  Machine timestamps are modelled as `Int` epoch
milliseconds.  Stateful database code is modelled by explicit state passing:
each Supabase query/update is translated to a pure function on an explicit
database value, and overlapping invocations are modelled by an explicit
interleaving of their steps.
-/

/-! ## Generic text utilities (JavaScript string semantics) -/

/-- Whitespace as removed by JavaScript `String.prototype.trim` (restricted to
the ASCII whitespace characters, which are the only ones relevant here). -/
def jsWhitespace (c : Char) : Bool :=
  c == ' ' || c == '\t' || c == '\n' || c == '\r' || c == '\x0b' || c == '\x0c'

/-- JavaScript `s.trim()`: drop leading and trailing whitespace. -/
def trimJS (l : List Char) : List Char :=
  ((l.dropWhile jsWhitespace).reverse.dropWhile jsWhitespace).reverse

/-- JavaScript `s.includes(pat)`: `pat` occurs as a contiguous substring. -/
def hasSub : List Char → List Char → Bool
  | [], pat => pat.isEmpty
  | c :: rest, pat => pat.isPrefixOf (c :: rest) || hasSub rest pat

/-- Helper for `lastIndexOf`: scan the list, remembering the last position at
which the pattern matches. -/
def lastIndexOfAux (pat : List Char) : List Char → Nat → Int → Int
  | [], _, best => best
  | c :: rest, i, best =>
    lastIndexOfAux pat rest (i + 1) (if pat.isPrefixOf (c :: rest) then (i : Int) else best)

/-- JavaScript `s.lastIndexOf(pat)` for a non-empty pattern `pat`: the largest
index at which `pat` starts in `s`, or `-1` when it does not occur. -/
def lastIndexOf (s pat : List Char) : Int :=
  lastIndexOfAux pat s 0 (-1)

/-- Decimal digit characters. -/
def isDigitCh (c : Char) : Bool := '0' ≤ c && c ≤ '9'

/-- Helper for `natDec`: accumulate decimal digits of `n` in front of `acc`.
The first argument is fuel (structural recursion, so that the kernel can
evaluate it); `fuel = n` always suffices since a positive number has at most
`n` decimal digits. -/
def natDecAux : Nat → Nat → List Char → List Char
  | 0, _, acc => acc
  | fuel + 1, n, acc =>
    if n = 0 then acc
    else natDecAux fuel (n / 10) (Nat.digitChar (n % 10) :: acc)

/-- Decimal representation of a natural number, as produced by JavaScript
template interpolation of a number. -/
def natDec (n : Nat) : List Char :=
  if n = 0 then ['0'] else natDecAux n n []

/-! ## ResponseChunker: `splitWhatsAppMessage` (whatsapp-webhook/index.ts, lines 33-77) -/

/-- `const WHATSAPP_TEXT_LIMIT = 4096`. -/
def WHATSAPP_TEXT_LIMIT : Nat := 4096

/-- The pattern `'(...)'` searched for by the second pass
(`p.replace('(...)', ...)`). -/
def patDots : List Char := "(...)".data

/-- The suffix appended to a segment by the first pass:
the template literal `` `\n\n(${partNum}/...)` ``. -/
def markerDots (partNum : Nat) : List Char :=
  '\n' :: '\n' :: '(' :: (natDec partNum ++ "/...)".data)

/-- The replacement string of the second pass: `` `(${total})` ``. -/
def markerTotal (total : Nat) : List Char :=
  '(' :: (natDec total ++ [')'])

/-- JavaScript `s.replace(pat, repl)` for string `pat`: replace the first
occurrence of `pat` (the source only calls it with the non-empty pattern
`'(...)'`; on no occurrence the string is returned unchanged). -/
def replaceFirst (pat repl : List Char) : List Char → List Char
  | [] => []
  | c :: rest =>
    if pat.isPrefixOf (c :: rest) then repl ++ (c :: rest).drop pat.length
    else c :: replaceFirst pat repl rest

/-- The split-point computation of one loop iteration of `splitWhatsAppMessage`:
`splitAt` starts at `limit - 20` and is replaced by a paragraph break, then a
sentence break (plus one), then a word break, whenever the break position in
`chunk = remaining.slice(0, limit - 20)` exceeds `limit / 2`. -/
def computeSplitAt (limit : Nat) (remaining : List Char) : Nat :=
  let chunk := remaining.take (limit - 20)
  let half : Int := ((limit / 2 : Nat) : Int)
  let paraBreak := lastIndexOf chunk ['\n', '\n']
  if half < paraBreak then paraBreak.toNat
  else
    let sentenceBreak :=
      max (lastIndexOf chunk ['.', ' '])
        (max (lastIndexOf chunk ['!', ' ']) (lastIndexOf chunk ['?', ' ']))
    if half < sentenceBreak then (sentenceBreak + 1).toNat
    else
      let wordBreak := lastIndexOf chunk [' ']
      if half < wordBreak then wordBreak.toNat
      else limit - 20

/-- The `while (remaining.length > 0)` loop of `splitWhatsAppMessage`
(first pass).  The loop is embedded with an explicit fuel argument; the
caller passes `text.length`, which suffices because every iteration of the
source loop removes at least `limit/2 + 1` characters (for the used limit
4096, at least 2049) from `remaining`. -/
def splitLoop (limit : Nat) : Nat → List Char → Nat → List (List Char)
  | 0, _, _ => []
  | fuel + 1, remaining, partNum =>
    if remaining.length = 0 then []
    else if remaining.length ≤ limit then [remaining]
    else
      let k := computeSplitAt limit remaining
      (trimJS (remaining.take k) ++ markerDots partNum)
        :: splitLoop limit fuel (trimJS (remaining.drop k)) (partNum + 1)

/-- `splitWhatsAppMessage(text, limit)`: the early return for
`!text || text.length <= limit` (an empty text has length 0 ≤ limit), the
first-pass loop and the second pass `parts.map((p, i) => p.replace('(...)',
`(${total})`))`. -/
def splitWhatsAppMessageWith (limit : Nat) (text : List Char) : List (List Char) :=
  if text.length ≤ limit then [text]
  else
    let parts := splitLoop limit text.length text 1
    parts.map (fun p => replaceFirst patDots (markerTotal parts.length) p)

/-- `splitWhatsAppMessage(text)` with the default `limit = WHATSAPP_TEXT_LIMIT`. -/
def splitWhatsAppMessage (text : List Char) : List (List Char) :=
  splitWhatsAppMessageWith WHATSAPP_TEXT_LIMIT text

/-- The bodies computed by the first pass of `splitWhatsAppMessage`: the same
loop, without the appended `\n\n(partNum/...)` suffix.  Used to state what
"the segment bodies with the trailing markers stripped" are. -/
def splitBodiesLoop (limit : Nat) : Nat → List Char → List (List Char)
  | 0, _ => []
  | fuel + 1, remaining =>
    if remaining.length = 0 then []
    else if remaining.length ≤ limit then [remaining]
    else
      let k := computeSplitAt limit remaining
      trimJS (remaining.take k) :: splitBodiesLoop limit fuel (trimJS (remaining.drop k))

/-- The segment bodies of `splitWhatsAppMessage text` at the default limit. -/
def splitBodies (text : List Char) : List (List Char) :=
  if text.length ≤ WHATSAPP_TEXT_LIMIT then [text]
  else splitBodiesLoop WHATSAPP_TEXT_LIMIT text.length text

/-- Delete every whitespace character ("the text up to whitespace"). -/
def stripWs (l : List Char) : List Char := l.filter (fun c => !jsWhitespace c)

/-- Position-marker stripping, following the claim wording "the bodies of all
segments ... with the trailing position markers stripped": removes a trailing
`(i/total)` marker in either the form the code produces (`\n\n(i/...)`) or the
filled-in form (`(i/total)`), with or without the two preceding newlines; any
other segment is returned unchanged. -/
def stripMarkerRev (r : List Char) : Option (List Char) :=
  match r with
  | ')' :: r1 =>
    let afterTotal : Option (List Char) :=
      match r1 with
      | '.' :: '.' :: '.' :: r2 => some r2
      | _ =>
        let ds := r1.takeWhile isDigitCh
        if ds.isEmpty then none else some (r1.drop ds.length)
    match afterTotal with
    | some ('/' :: r2) =>
      let ds := r2.takeWhile isDigitCh
      if ds.isEmpty then none
      else
        match r2.drop ds.length with
        | '(' :: '\n' :: '\n' :: r3 => some r3
        | '(' :: r3 => some r3
        | _ => none
    | _ => none
  | _ => none

/-- Strip a trailing position marker from a segment (identity when the segment
does not end in a marker). -/
def stripMarkerSpec (p : List Char) : List Char :=
  match stripMarkerRev p.reverse with
  | some r => r.reverse
  | none => p

example : splitWhatsAppMessage ("hello".data) = [("hello".data)] := by decide
example : stripMarkerSpec ("ab".data ++ markerDots 1) = "ab".data := by decide
example : stripMarkerSpec ("ab".data) = "ab".data := by decide

/-! ## Lemmas about the text utilities -/

theorem dropWhile_eq_self_of (p : Char → Bool) (l : List Char)
    (h : ∀ x ∈ l, p x = false) : l.dropWhile p = l := by
  cases l with
  | nil => rfl
  | cons c rest => simp [List.dropWhile, h c (by simp)]

theorem trimJS_eq_self (l : List Char) (h : ∀ x ∈ l, jsWhitespace x = false) :
    trimJS l = l := by
  unfold trimJS
  rw [dropWhile_eq_self_of _ _ h,
    dropWhile_eq_self_of _ _ (fun x hx => h x (List.mem_reverse.mp hx)),
    List.reverse_reverse]

theorem trimJS_decomp (l : List Char) :
    ∃ u v, l = u ++ trimJS l ++ v
      ∧ (∀ c ∈ u, jsWhitespace c = true) ∧ (∀ c ∈ v, jsWhitespace c = true) := by
  refine ⟨l.takeWhile jsWhitespace,
    ((l.dropWhile jsWhitespace).reverse.takeWhile jsWhitespace).reverse, ?_, ?_, ?_⟩
  · have h1 : l.takeWhile jsWhitespace ++ l.dropWhile jsWhitespace = l :=
      List.takeWhile_append_dropWhile jsWhitespace l
    have h2 : (l.dropWhile jsWhitespace).reverse.takeWhile jsWhitespace
        ++ (l.dropWhile jsWhitespace).reverse.dropWhile jsWhitespace
        = (l.dropWhile jsWhitespace).reverse :=
      List.takeWhile_append_dropWhile jsWhitespace _
    have h3 : trimJS l ++ ((l.dropWhile jsWhitespace).reverse.takeWhile jsWhitespace).reverse
        = l.dropWhile jsWhitespace := by
      have h4 := congrArg List.reverse h2
      rw [List.reverse_append, List.reverse_reverse] at h4
      exact h4
    calc l = l.takeWhile jsWhitespace ++ l.dropWhile jsWhitespace := h1.symm
      _ = l.takeWhile jsWhitespace ++ (trimJS l
            ++ ((l.dropWhile jsWhitespace).reverse.takeWhile jsWhitespace).reverse) := by
            rw [h3]
      _ = _ := by simp
  · exact fun c hc => List.mem_takeWhile_imp hc
  · exact fun c hc => List.mem_takeWhile_imp (List.mem_reverse.mp hc)

theorem trimJS_length_le (l : List Char) : (trimJS l).length ≤ l.length := by
  obtain ⟨u, v, hl, -, -⟩ := trimJS_decomp l
  have := congrArg List.length hl
  simp [List.length_append] at this
  omega

theorem stripWs_append (a b : List Char) : stripWs (a ++ b) = stripWs a ++ stripWs b :=
  List.filter_append a b

theorem stripWs_of_allWs (u : List Char) (h : ∀ c ∈ u, jsWhitespace c = true) :
    stripWs u = [] := by
  refine List.filter_eq_nil_iff.mpr (fun a ha => ?_)
  simp [h a ha]

theorem stripWs_trimJS (l : List Char) : stripWs (trimJS l) = stripWs l := by
  obtain ⟨u, v, hl, hu, hv⟩ := trimJS_decomp l
  conv_rhs => rw [hl]
  rw [stripWs_append, stripWs_append, stripWs_of_allWs u hu, stripWs_of_allWs v hv]
  simp

theorem hasSub_iff (l pat : List Char) :
    hasSub l pat = true ↔ ∃ u v, l = u ++ pat ++ v := by
  induction l with
  | nil =>
    simp only [hasSub, List.isEmpty_iff]
    constructor
    · rintro rfl; exact ⟨[], [], rfl⟩
    · rintro ⟨u, v, huv⟩
      rw [List.append_assoc] at huv
      obtain ⟨-, hpv⟩ := List.append_eq_nil.mp huv.symm
      exact (List.append_eq_nil.mp hpv).1
  | cons c rest ih =>
    simp only [hasSub, Bool.or_eq_true, List.isPrefixOf_iff_prefix, ih]
    constructor
    · rintro (⟨t, ht⟩ | ⟨u, v, huv⟩)
      · exact ⟨[], t, by simp [ht]⟩
      · exact ⟨c :: u, v, by simp [huv]⟩
    · rintro ⟨u, v, huv⟩
      cases u with
      | nil => exact Or.inl ⟨v, by simpa using huv.symm⟩
      | cons x u' =>
        right
        simp only [List.cons_append] at huv
        exact ⟨u', v, (List.cons.injEq .. ▸ huv).2⟩

theorem hasSub_of_part (l m pat u v : List Char) (hl : l = u ++ m ++ v)
    (hm : hasSub m pat = true) : hasSub l pat = true := by
  obtain ⟨a, b, hab⟩ := (hasSub_iff m pat).mp hm
  refine (hasSub_iff l pat).mpr ⟨u ++ a, b ++ v, ?_⟩
  subst hl hab
  simp

theorem hasSub_take (l pat : List Char) (k : Nat) (h : hasSub l pat = false) :
    hasSub (l.take k) pat = false := by
  by_contra hc
  rw [Bool.not_eq_false] at hc
  have : hasSub l pat = true :=
    hasSub_of_part l (l.take k) pat [] (l.drop k) (by simp) hc
  simp [this] at h

theorem hasSub_drop (l pat : List Char) (k : Nat) (h : hasSub l pat = false) :
    hasSub (l.drop k) pat = false := by
  by_contra hc
  rw [Bool.not_eq_false] at hc
  have : hasSub l pat = true :=
    hasSub_of_part l (l.drop k) pat (l.take k) [] (by simp) hc
  simp [this] at h

theorem hasSub_trimJS (l pat : List Char) (h : hasSub l pat = false) :
    hasSub (trimJS l) pat = false := by
  obtain ⟨u, v, hl, -, -⟩ := trimJS_decomp l
  by_contra hc
  rw [Bool.not_eq_false] at hc
  have : hasSub l pat = true := hasSub_of_part l (trimJS l) pat u v hl hc
  simp [this] at h

theorem hasSub_eq_false_of_head_ne (s pr : List Char) (p0 : Char)
    (h : ∀ x ∈ s, x ≠ p0) : hasSub s (p0 :: pr) = false := by
  induction s with
  | nil => rfl
  | cons c rest ih =>
    have hc : c ≠ p0 := h c (by simp)
    have h1 : (p0 :: pr).isPrefixOf (c :: rest) = false := by
      simp only [List.isPrefixOf, Bool.and_eq_false_iff]
      exact Or.inl (by simpa using fun he => hc he.symm)
    simp only [hasSub, h1, Bool.false_or]
    exact ih (fun x hx => h x (by simp [hx]))

theorem isPrefixOf_append_of_le (p s t : List Char) (h : p.isPrefixOf (s ++ t) = true)
    (hlen : p.length ≤ s.length) : p.isPrefixOf s = true := by
  rw [List.isPrefixOf_iff_prefix] at h ⊢
  rw [List.prefix_iff_eq_take] at h
  rw [List.take_append_of_le_length hlen] at h
  rw [h]
  exact List.take_prefix _ _

theorem isPrefixOf_append_split (p s t : List Char) (h : p.isPrefixOf (s ++ t) = true)
    (hlen : s.length < p.length) : (p.drop s.length).isPrefixOf t = true := by
  rw [List.isPrefixOf_iff_prefix] at h ⊢
  obtain ⟨u, hu⟩ := h
  refine ⟨u, ?_⟩
  have h1 := congrArg (List.drop s.length) hu
  rw [List.drop_append_of_le_length (le_of_lt hlen),
    List.drop_append_of_le_length (le_refl s.length), List.drop_length] at h1
  simpa using h1

theorem digitChar_isDigit (d : Nat) (h : d < 10) : isDigitCh (Nat.digitChar d) = true := by
  interval_cases d <;> decide

theorem natDecAux_digits (fuel n : Nat) (acc : List Char)
    (hacc : ∀ c ∈ acc, isDigitCh c = true) :
    ∀ c ∈ natDecAux fuel n acc, isDigitCh c = true := by
  induction fuel generalizing n acc with
  | zero => exact hacc
  | succ f ih =>
    simp only [natDecAux]
    split
    · exact hacc
    · refine ih (n / 10) _ (fun c hc => ?_)
      rcases List.mem_cons.mp hc with h | h
      · exact h ▸ digitChar_isDigit _ (Nat.mod_lt _ (by norm_num))
      · exact hacc c h

theorem natDec_digits (n : Nat) : ∀ c ∈ natDec n, isDigitCh c = true := by
  unfold natDec
  split
  · intro c hc; simp at hc; subst hc; decide
  · exact natDecAux_digits n n [] (by simp)

theorem natDecAux_length_mono (fuel n : Nat) (acc : List Char) :
    acc.length ≤ (natDecAux fuel n acc).length := by
  induction fuel generalizing n acc with
  | zero => simp [natDecAux]
  | succ f ih =>
    simp only [natDecAux]
    split
    · exact le_refl _
    · exact le_trans (by simp) (ih (n / 10) (Nat.digitChar (n % 10) :: acc))

theorem natDec_ne_nil (n : Nat) : natDec n ≠ [] := by
  unfold natDec
  split
  · simp
  · rename_i hn
    cases n with
    | zero => simp at hn
    | succ m =>
      intro hnil
      have h1 : natDecAux (m + 1) (m + 1) [] =
          natDecAux m ((m + 1) / 10) [Nat.digitChar ((m + 1) % 10)] := by
        simp [natDecAux]
      have h2 := natDecAux_length_mono m ((m + 1) / 10) [Nat.digitChar ((m + 1) % 10)]
      rw [← h1, hnil] at h2
      simp at h2

theorem natDecAux_length_le (fuel : Nat) : ∀ (k n : Nat) (acc : List Char), n < 10 ^ k →
    (natDecAux fuel n acc).length ≤ k + acc.length := by
  induction fuel with
  | zero => intro k n acc _; simp [natDecAux]
  | succ f ih =>
    intro k n acc hn
    simp only [natDecAux]
    split
    · simp
    · rename_i hne
      cases k with
      | zero => simp at hn; omega
      | succ k' =>
        have hdiv : n / 10 < 10 ^ k' := by
          rw [Nat.div_lt_iff_lt_mul (by norm_num : (0:Nat) < 10)]
          calc n < 10 ^ (k' + 1) := hn
            _ = 10 ^ k' * 10 := by ring
        have := ih k' (n / 10) (Nat.digitChar (n % 10) :: acc) hdiv
        simp at this ⊢
        omega

theorem natDec_length_le (k n : Nat) (hk : 1 ≤ k) (hn : n < 10 ^ k) :
    (natDec n).length ≤ k := by
  unfold natDec
  split
  · simpa using hk
  · have := natDecAux_length_le n k n [] hn
    simpa using this

theorem markerDots_length (p : Nat) : (markerDots p).length = (natDec p).length + 8 := by
  have h5 : ("/...)".data).length = 5 := rfl
  simp only [markerDots, List.length_cons, List.length_append, h5]

theorem hasSub_append_marker (m : Nat) :
    ∀ b : List Char, hasSub b patDots = false → hasSub (b ++ markerDots m) patDots = false := by
  intro b
  induction b with
  | nil =>
    intro _
    obtain ⟨d, nd', hnd⟩ : ∃ d nd', natDec m = d :: nd' := by
      cases h : natDec m with
      | nil => exact absurd h (natDec_ne_nil m)
      | cons d nd' => exact ⟨d, nd', rfl⟩
    have hd : isDigitCh d = true := by
      have := natDec_digits m d
      rw [hnd] at this
      exact this (by simp)
    simp only [List.nil_append, markerDots, hnd]
    have hpre1 : patDots.isPrefixOf ('\n' :: '\n' :: '(' :: (d :: nd' ++ "/...)".data)) = false := by
      simp [patDots, List.isPrefixOf]
    have hpre2 : patDots.isPrefixOf ('\n' :: '(' :: (d :: nd' ++ "/...)".data)) = false := by
      simp [patDots, List.isPrefixOf]
    have hpre3 : patDots.isPrefixOf ('(' :: (d :: nd' ++ "/...)".data)) = false := by
      have hne : ('.' == d) = false := by
        cases hde : ('.' == d)
        · rfl
        · rw [beq_iff_eq] at hde
          rw [← hde] at hd
          simp [isDigitCh] at hd
      simp [patDots, List.isPrefixOf, hne]
    have htail : hasSub (d :: nd' ++ "/...)".data) patDots = false := by
      refine hasSub_eq_false_of_head_ne _ _ '(' (fun x hx hxe => ?_)
      subst hxe
      rcases List.mem_cons.mp hx with h | h
      · rw [← h] at hd
        exact absurd hd (by decide)
      · rcases List.mem_append.mp h with h2 | h2
        · have hdig := natDec_digits m '(' (by rw [hnd]; exact List.mem_cons_of_mem _ h2)
          exact absurd hdig (by decide)
        · exact absurd h2 (by decide)
    show hasSub ('\n' :: '\n' :: '(' :: (d :: nd' ++ "/...)".data)) patDots = false
    simp only [hasSub, hpre1, hpre2, hpre3, Bool.false_or]
    exact htail
  | cons c b' ih =>
    intro h
    have hsplit : patDots.isPrefixOf (c :: b') = false ∧ hasSub b' patDots = false := by
      have := h
      simp only [hasSub, Bool.or_eq_false_iff] at this
      exact this
    have hrest : hasSub (b' ++ markerDots m) patDots = false := ih hsplit.2
    have hpre : patDots.isPrefixOf ((c :: b') ++ markerDots m) = false := by
      by_contra hc
      rw [Bool.not_eq_false] at hc
      by_cases hlen : patDots.length ≤ (c :: b').length
      · have := isPrefixOf_append_of_le patDots (c :: b') (markerDots m) hc hlen
        rw [hsplit.1] at this
        exact Bool.false_ne_true this
      · push_neg at hlen
        have hdropPre := isPrefixOf_append_split patDots (c :: b') (markerDots m) hc hlen
        have hlb : 1 ≤ (c :: b').length := by simp
        have hub : (c :: b').length ≤ 4 := by
          have : patDots.length = 5 := by decide
          omega
        obtain ⟨d, nd', hnd⟩ : ∃ d nd', natDec m = d :: nd' := by
          cases hh : natDec m with
          | nil => exact absurd hh (natDec_ne_nil m)
          | cons d nd' => exact ⟨d, nd', rfl⟩
        rw [markerDots, hnd] at hdropPre
        set q := (c :: b').length with hq
        interval_cases q <;>
          simp [patDots, List.isPrefixOf] at hdropPre
    simp only [List.cons_append, hasSub, Bool.or_eq_false_iff]
    constructor
    · simpa using hpre
    · simpa using hrest

theorem lastIndexOfAux_lt (pat : List Char) :
    ∀ (l : List Char) (i : Nat) (best : Int), best < (i : Int) →
      lastIndexOfAux pat l i best < (i : Int) + l.length := by
  intro l
  induction l with
  | nil => intro i best h; simpa [lastIndexOfAux] using h
  | cons c rest ih =>
    intro i best h
    simp only [lastIndexOfAux]
    have h2 : (if pat.isPrefixOf (c :: rest) then (i : Int) else best) < ((i + 1 : Nat) : Int) := by
      split
      · push_cast; omega
      · push_cast; omega
    have := ih (i + 1) _ h2
    push_cast at this ⊢
    simp only [List.length_cons]
    push_cast
    omega

theorem lastIndexOf_lt (s pat : List Char) : lastIndexOf s pat < (s.length : Int) := by
  have := lastIndexOfAux_lt pat s 0 (-1) (by norm_num)
  simpa [lastIndexOf] using this

theorem computeSplitAt_ge (r : List Char) : 2049 ≤ computeSplitAt 4096 r := by
  unfold computeSplitAt
  simp only
  split
  · rename_i h
    omega
  · split
    · rename_i h
      omega
    · split
      · rename_i h
        omega
      · omega

theorem computeSplitAt_le (r : List Char) : computeSplitAt 4096 r ≤ 4076 := by
  have hchunk : (r.take (4096 - 20)).length ≤ 4076 := by
    simp [List.length_take]
  unfold computeSplitAt
  simp only
  split
  · rename_i h
    have := lastIndexOf_lt (r.take (4096 - 20)) ['\n', '\n']
    omega
  · split
    · rename_i h
      have h1 := lastIndexOf_lt (r.take (4096 - 20)) ['.', ' ']
      have h2 := lastIndexOf_lt (r.take (4096 - 20)) ['!', ' ']
      have h3 := lastIndexOf_lt (r.take (4096 - 20)) ['?', ' ']
      have hm := max_lt h1 (max_lt h2 h3)
      omega
    · split
      · rename_i h
        have := lastIndexOf_lt (r.take (4096 - 20)) [' ']
        omega
      · omega

theorem replaceFirst_eq_self (pat repl s : List Char) (h : hasSub s pat = false) :
    replaceFirst pat repl s = s := by
  induction s with
  | nil => rfl
  | cons c rest ih =>
    simp only [hasSub, Bool.or_eq_false_iff] at h
    simp only [replaceFirst, h.1, Bool.false_eq_true, if_false]
    rw [ih h.2]

theorem splitBodiesLoop_roundtrip : ∀ (fuel : Nat) (r : List Char), r.length ≤ fuel →
    stripWs ((splitBodiesLoop 4096 fuel r).flatten) = stripWs r := by
  intro fuel
  induction fuel with
  | zero =>
    intro r hr
    have hnil : r = [] := List.eq_nil_of_length_eq_zero (by omega)
    subst hnil
    rfl
  | succ f ih =>
    intro r hr
    by_cases h0 : r.length = 0
    · have hnil : r = [] := List.eq_nil_of_length_eq_zero h0
      subst hnil
      rfl
    · by_cases h1 : r.length ≤ 4096
      · simp [splitBodiesLoop, h0, h1]
      · simp only [splitBodiesLoop, h0, h1, if_false]
        have hk := computeSplitAt_ge r
        have hdlen : (r.drop (computeSplitAt 4096 r)).length = r.length - computeSplitAt 4096 r :=
          List.length_drop _ _
        have hdroplen : (trimJS (r.drop (computeSplitAt 4096 r))).length ≤ f := by
          have := trimJS_length_le (r.drop (computeSplitAt 4096 r))
          omega
        have hIH := ih (trimJS (r.drop (computeSplitAt 4096 r))) hdroplen
        simp only [List.flatten_cons]
        rw [stripWs_append, stripWs_trimJS, hIH, stripWs_trimJS]
        rw [← stripWs_append, List.take_append_drop]

theorem splitLoop_eq_bodies : ∀ (fuel : Nat) (r : List Char) (n : Nat),
    (splitLoop 4096 fuel r n).length = (splitBodiesLoop 4096 fuel r).length
    ∧ ∀ (i : Nat) (p b : List Char),
        (splitLoop 4096 fuel r n).get? i = some p →
        (splitBodiesLoop 4096 fuel r).get? i = some b →
        p = b ++ markerDots (n + i) ∨ p = b := by
  intro fuel
  induction fuel with
  | zero =>
    intro r n
    exact ⟨rfl, fun i p b hp _ => by simp [splitLoop] at hp⟩
  | succ f ih =>
    intro r n
    by_cases h0 : r.length = 0
    · refine ⟨by simp [splitLoop, splitBodiesLoop, h0], fun i p b hp _ => ?_⟩
      simp [splitLoop, h0] at hp
    · by_cases h1 : r.length ≤ 4096
      · refine ⟨by simp [splitLoop, splitBodiesLoop, h0, h1], fun i p b hp hb => ?_⟩
        simp only [splitLoop, splitBodiesLoop, h0, h1, if_false, if_true] at hp hb
        cases i with
        | zero =>
          simp at hp hb
          right
          rw [← hp, ← hb]
        | succ j => simp at hp
      · refine ⟨?_, fun i p b hp hb => ?_⟩
        · simp only [splitLoop, splitBodiesLoop, h0, h1, if_false]
          simpa using (ih (trimJS (r.drop (computeSplitAt 4096 r))) (n + 1)).1
        · simp only [splitLoop, splitBodiesLoop, h0, h1, if_false] at hp hb
          cases i with
          | zero =>
            simp at hp hb
            left
            rw [← hp, ← hb]
            simp
          | succ j =>
            simp only [List.get?_cons_succ] at hp hb
            rcases (ih (trimJS (r.drop (computeSplitAt 4096 r))) (n + 1)).2 j p b hp hb with h | h
            · left
              rw [h]
              congr 2
              omega
            · right
              exact h

theorem splitLoop_no_patDots : ∀ (fuel : Nat) (r : List Char) (n : Nat),
    hasSub r patDots = false →
    ∀ p ∈ splitLoop 4096 fuel r n, hasSub p patDots = false := by
  intro fuel
  induction fuel with
  | zero => intro r n _ p hp; simp [splitLoop] at hp
  | succ f ih =>
    intro r n hr p hp
    by_cases h0 : r.length = 0
    · simp [splitLoop, h0] at hp
    · by_cases h1 : r.length ≤ 4096
      · simp [splitLoop, h0, h1] at hp
        subst hp
        exact hr
      · simp only [splitLoop, h0, h1, if_false, List.mem_cons] at hp
        rcases hp with hp | hp
        · subst hp
          exact hasSub_append_marker n _ (hasSub_trimJS _ _ (hasSub_take _ _ _ hr))
        · exact ih _ (n + 1) (hasSub_trimJS _ _ (hasSub_drop _ _ _ hr)) p hp

theorem splitLoop_part_le : ∀ (fuel : Nat) (r : List Char) (n : Nat),
    2049 * n + r.length ≤ 2049 * 10 ^ 12 →
    ∀ p ∈ splitLoop 4096 fuel r n, p.length ≤ 4096 := by
  intro fuel
  induction fuel with
  | zero => intro r n _ p hp; simp [splitLoop] at hp
  | succ f ih =>
    intro r n hbound p hp
    have hbig : (2049 : Nat) * 10 ^ 12 = 2049000000000000 := by norm_num
    by_cases h0 : r.length = 0
    · simp [splitLoop, h0] at hp
    · by_cases h1 : r.length ≤ 4096
      · simp [splitLoop, h0, h1] at hp
        subst hp
        omega
      · simp only [splitLoop, h0, h1, if_false, List.mem_cons] at hp
        push_neg at h1
        rcases hp with hp | hp
        · subst hp
          have hk_le := computeSplitAt_le r
          have htrim := trimJS_length_le (r.take (computeSplitAt 4096 r))
          have htakelen : (r.take (computeSplitAt 4096 r)).length ≤ 4076 := by
            rw [List.length_take]
            omega
          have hnlt : n < 10 ^ 12 := by
            have h12 : (10 : Nat) ^ 12 = 1000000000000 := by norm_num
            omega
          have hdig : (natDec n).length ≤ 12 :=
            natDec_length_le 12 n (by norm_num) hnlt
          rw [List.length_append, markerDots_length]
          omega
        · refine ih _ (n + 1) ?_ p hp
          have hk := computeSplitAt_ge r
          have htrim := trimJS_length_le (r.drop (computeSplitAt 4096 r))
          have hdlen : (r.drop (computeSplitAt 4096 r)).length
              = r.length - computeSplitAt 4096 r := List.length_drop _ _
          omega

theorem map_eq_self_of {α : Type} (f : α → α) :
    ∀ l : List α, (∀ p ∈ l, f p = p) → l.map f = l := by
  intro l
  induction l with
  | nil => intro _; rfl
  | cons c rest ih =>
    intro h
    simp only [List.map_cons, h c (by simp)]
    rw [ih (fun p hp => h p (by simp [hp]))]

theorem splitWhatsAppMessage_eq_loop (text : List Char) (hnp : hasSub text patDots = false)
    (hlen : ¬ text.length ≤ WHATSAPP_TEXT_LIMIT) :
    splitWhatsAppMessage text = splitLoop 4096 text.length text 1 := by
  unfold splitWhatsAppMessage splitWhatsAppMessageWith
  rw [if_neg hlen]
  apply map_eq_self_of
  intro p hp
  exact replaceFirst_eq_self _ _ p (splitLoop_no_patDots text.length text 1 hnp p hp)

/-- Claim C2 (amended).  For the chunker `splitWhatsAppMessage` with the
4096-unit ceiling: (1) a text within the ceiling is returned unchanged as a
single segment; (2) concatenating the segment bodies (the segments before the
appended position-marker suffixes, as computed by `splitBodies`) reproduces the
original text up to the whitespace trimmed at segment boundaries — precisely,
the two sides agree after deleting all whitespace; (3) for a text that does not
contain the literal substring `(...)` (on which the second pass would fire and
alter content), every returned segment is its body with either the trailing
marker `\n\n(i/...)` appended (`i` the 1-based segment index) or nothing
appended, so stripping trailing markers recovers exactly the bodies; (4) for
such texts of length at most `10 ^ 15`, no returned segment exceeds the
4096-unit ceiling. -/
theorem C2_chunker_roundtrip_amended :
    (∀ text : List Char, text.length ≤ WHATSAPP_TEXT_LIMIT →
        splitWhatsAppMessage text = [text])
    ∧ (∀ text : List Char, stripWs (splitBodies text).flatten = stripWs text)
    ∧ (∀ text : List Char, hasSub text patDots = false →
        (splitWhatsAppMessage text).length = (splitBodies text).length
        ∧ ∀ (i : Nat) (p b : List Char),
            (splitWhatsAppMessage text).get? i = some p →
            (splitBodies text).get? i = some b →
            p = b ++ markerDots (i + 1) ∨ p = b)
    ∧ (∀ text : List Char, hasSub text patDots = false → text.length ≤ 10 ^ 15 →
        ∀ p ∈ splitWhatsAppMessage text, p.length ≤ WHATSAPP_TEXT_LIMIT) := by
  have hfit : ∀ text : List Char, text.length ≤ WHATSAPP_TEXT_LIMIT →
      splitWhatsAppMessage text = [text] := by
    intro text h
    unfold splitWhatsAppMessage splitWhatsAppMessageWith
    rw [if_pos h]
  refine ⟨hfit, ?_, ?_, ?_⟩
  · intro text
    unfold splitBodies
    split
    · simp
    · exact splitBodiesLoop_roundtrip text.length text (le_refl _)
  · intro text hnp
    by_cases hlen : text.length ≤ WHATSAPP_TEXT_LIMIT
    · rw [hfit text hlen]
      unfold splitBodies
      rw [if_pos hlen]
      refine ⟨rfl, fun i p b hp hb => ?_⟩
      cases i with
      | zero =>
        simp at hp hb
        right
        rw [← hp, ← hb]
      | succ j => simp at hp
    · rw [splitWhatsAppMessage_eq_loop text hnp hlen]
      unfold splitBodies
      rw [if_neg hlen]
      have hrel := splitLoop_eq_bodies text.length text 1
      refine ⟨hrel.1, fun i p b hp hb => ?_⟩
      rcases hrel.2 i p b hp hb with h | h
      · left
        rw [h]
        congr 2
        omega
      · right
        exact h
  · intro text hnp hbound p hp
    by_cases hlen : text.length ≤ WHATSAPP_TEXT_LIMIT
    · rw [hfit text hlen] at hp
      simp at hp
      subst hp
      exact hlen
    · rw [splitWhatsAppMessage_eq_loop text hnp hlen] at hp
      refine splitLoop_part_le text.length text 1 ?_ p hp
      have h15 : (10 : Nat) ^ 15 = 1000000000000000 := by norm_num
      have hbig : (2049 : Nat) * 10 ^ 12 = 2049000000000000 := by norm_num
      omega

/-- Witness for C2: a five-character text is within the ceiling and is returned
unchanged as a single segment. -/
theorem C2_chunker_roundtrip_amended_witness :
    splitWhatsAppMessage ("hello".data) = [("hello".data)] :=
  C2_chunker_roundtrip_amended.1 ("hello".data) (by decide)

theorem lastIndexOfAux_all_eq (p0 : Char) (pr : List Char) (c : Char) (hc : p0 ≠ c) :
    ∀ (l : List Char) (i : Nat) (best : Int), (∀ x ∈ l, x = c) →
      lastIndexOfAux (p0 :: pr) l i best = best := by
  intro l
  induction l with
  | nil => intro i best _; rfl
  | cons x rest ih =>
    intro i best hall
    have hx : x = c := hall x (by simp)
    have hpre : (p0 :: pr).isPrefixOf (x :: rest) = false := by
      simp only [List.isPrefixOf, Bool.and_eq_false_iff]
      left
      subst hx
      simpa using fun he => hc he
    simp only [lastIndexOfAux, hpre, Bool.false_eq_true, if_false]
    exact ih (i + 1) best (fun y hy => hall y (by simp [hy]))

theorem lastIndexOf_all_eq (p0 : Char) (pr : List Char) (c : Char) (hc : p0 ≠ c)
    (l : List Char) (hall : ∀ x ∈ l, x = c) : lastIndexOf l (p0 :: pr) = -1 :=
  lastIndexOfAux_all_eq p0 pr c hc l 0 (-1) hall

theorem computeSplitAt_replicateA (r : List Char)
    (h : r.take (4096 - 20) = List.replicate 4076 'a') : computeSplitAt 4096 r = 4076 := by
  unfold computeSplitAt
  simp only [h]
  have hall : ∀ x ∈ List.replicate 4076 'a', x = 'a' := fun x hx => List.eq_of_mem_replicate hx
  rw [lastIndexOf_all_eq '\n' ['\n'] 'a' (by decide) _ hall,
    lastIndexOf_all_eq '.' [' '] 'a' (by decide) _ hall,
    lastIndexOf_all_eq '!' [' '] 'a' (by decide) _ hall,
    lastIndexOf_all_eq '?' [' '] 'a' (by decide) _ hall,
    lastIndexOf_all_eq ' ' [] 'a' (by decide) _ hall]
  norm_num

theorem trimJS_replicate (n : Nat) (c : Char) (hc : jsWhitespace c = false) :
    trimJS (List.replicate n c) = List.replicate n c :=
  trimJS_eq_self _ (fun x hx => by rw [List.eq_of_mem_replicate hx]; exact hc)

theorem takeWhile_all_append (p : Char → Bool) (u : List Char) (y : Char) (v : List Char)
    (hu : ∀ x ∈ u, p x = true) (hy : p y = false) :
    (u ++ y :: v).takeWhile p = u := by
  induction u with
  | nil => simp [List.takeWhile, hy]
  | cons x u' ih =>
    simp only [List.cons_append, List.takeWhile_cons, hu x (by simp), if_true]
    rw [ih (fun z hz => hu z (by simp [hz]))]

theorem stripMarkerSpec_marker (b : List Char) (m : Nat) :
    stripMarkerSpec (b ++ markerDots m) = b := by
  obtain ⟨d, nd', hnd⟩ : ∃ d nd', natDec m = d :: nd' := by
    cases h : natDec m with
    | nil => exact absurd h (natDec_ne_nil m)
    | cons d nd' => exact ⟨d, nd', rfl⟩
  have hrev : (b ++ markerDots m).reverse
      = ')' :: '.' :: '.' :: '.' :: '/' :: ((natDec m).reverse ++ '(' :: '\n' :: '\n' :: b.reverse) := by
    simp [markerDots]
  have hds : ((natDec m).reverse ++ '(' :: '\n' :: '\n' :: b.reverse).takeWhile isDigitCh
      = (natDec m).reverse := by
    refine takeWhile_all_append isDigitCh _ '(' _ ?_ (by decide)
    intro x hx
    exact natDec_digits m x (List.mem_reverse.mp hx)
  have hne : ((natDec m).reverse).isEmpty = false := by
    rw [hnd]
    simp
  have hdrop : ((natDec m).reverse ++ '(' :: '\n' :: '\n' :: b.reverse).drop
      ((natDec m).reverse).length = '(' :: '\n' :: '\n' :: b.reverse := by
    rw [List.drop_left]
  unfold stripMarkerSpec
  rw [hrev]
  simp only [stripMarkerRev, hds, hne, Bool.false_eq_true, if_false, hdrop]
  simp

theorem natDec_one : natDec 1 = ['1'] := by decide

/-- The input of the C3 theorem: a 5000-character text of repeated `a`. -/
def textC3 : List Char := List.replicate 5000 'a'

/-- The input of the C2 counterexample: 4076 `a`, one space, 21 `b`
(4098 characters, so the chunker must split; the space at the split boundary
is destroyed by `.trim()`). -/
def textC2 : List Char := List.replicate 4076 'a' ++ ' ' :: List.replicate 21 'b'

theorem textC3_no_patDots : hasSub textC3 patDots = false := by
  have hpd : patDots = '(' :: "...)".data := rfl
  rw [hpd]
  refine hasSub_eq_false_of_head_ne _ _ '(' (fun x hx hxe => ?_)
  rw [List.eq_of_mem_replicate hx] at hxe
  simp at hxe

theorem textC2_no_patDots : hasSub textC2 patDots = false := by
  have hpd : patDots = '(' :: "...)".data := rfl
  rw [hpd]
  refine hasSub_eq_false_of_head_ne _ _ '(' (fun x hx hxe => ?_)
  subst hxe
  unfold textC2 at hx
  rcases List.mem_append.mp hx with h | h
  · have := List.eq_of_mem_replicate h
    simp at this
  · rcases List.mem_cons.mp h with h2 | h2
    · simp at h2
    · have := List.eq_of_mem_replicate h2
      simp at this

theorem splitLoop_eval_textC3 :
    splitLoop 4096 5000 textC3 1 = [List.replicate 4076 'a' ++ markerDots 1,
      List.replicate 924 'a'] := by
  have htake : textC3.take (4096 - 20) = List.replicate 4076 'a' := by
    unfold textC3
    rw [List.take_replicate]
    congr 1
  have hk : computeSplitAt 4096 textC3 = 4076 := computeSplitAt_replicateA textC3 htake
  have hlen : textC3.length = 5000 := by
    unfold textC3
    rw [List.length_replicate]
  rw [show (5000 : Nat) = 4999 + 1 from rfl, splitLoop]
  rw [hlen]
  norm_num
  rw [hk]
  have htake2 : textC3.take 4076 = List.replicate 4076 'a' := by
    unfold textC3
    rw [List.take_replicate]
    congr 1
  have hdrop : textC3.drop 4076 = List.replicate 924 'a' := by
    unfold textC3
    rw [List.drop_replicate]
  rw [htake2, hdrop, trimJS_replicate _ _ (by decide), trimJS_replicate _ _ (by decide)]
  rw [show (4999 : Nat) = 4998 + 1 from rfl, splitLoop]
  norm_num

theorem splitLoop_eval_textC2 :
    splitLoop 4096 4098 textC2 1 = [List.replicate 4076 'a' ++ markerDots 1,
      List.replicate 21 'b'] := by
  have hlen1 : (List.replicate 4076 'a' : List Char).length = 4076 := by
    rw [List.length_replicate]
  have htake : textC2.take (4096 - 20) = List.replicate 4076 'a' := by
    unfold textC2
    rw [show (4096 - 20 : Nat) = 4076 from rfl, List.take_left' hlen1]
  have hk : computeSplitAt 4096 textC2 = 4076 := computeSplitAt_replicateA textC2 htake
  have hlen : textC2.length = 4098 := by
    unfold textC2
    rw [List.length_append, List.length_cons, List.length_replicate, List.length_replicate]
  rw [show (4098 : Nat) = 4097 + 1 from rfl, splitLoop]
  rw [hlen]
  norm_num
  rw [hk]
  have htake2 : textC2.take 4076 = List.replicate 4076 'a' := by
    rw [show (4076 : Nat) = 4096 - 20 from rfl]
    exact htake
  have hdrop : textC2.drop 4076 = ' ' :: List.replicate 21 'b' := by
    unfold textC2
    rw [List.drop_left' hlen1]
  have htrim2 : trimJS (' ' :: List.replicate 21 'b') = List.replicate 21 'b' := by decide
  rw [htake2, hdrop, trimJS_replicate _ _ (by decide), htrim2]
  rw [show (4097 : Nat) = 4096 + 1 from rfl, splitLoop]
  norm_num

/-- Claim C3 (evaluation of the code at the failing input): for the 5000
character text `textC3` the chunker returns a first segment ending in the
unfilled marker `\n\n(1/...)` — not `(1/2)` — and a final segment with no
marker at all.  The second pass `p.replace('(...)', ...)` never fires because
the pass-one markers have the shape `(1/...)`, which does not contain the
searched pattern `(...)`. -/
theorem C3_marker_pass_dead :
    splitWhatsAppMessage textC3
      = [List.replicate 4076 'a' ++ "\n\n(1/...)".data, List.replicate 924 'a'] := by
  have hlen5000 : textC3.length = 5000 := by
    unfold textC3
    rw [List.length_replicate]
  have hlen : ¬ textC3.length ≤ WHATSAPP_TEXT_LIMIT := by
    rw [hlen5000]
    unfold WHATSAPP_TEXT_LIMIT
    norm_num
  rw [splitWhatsAppMessage_eq_loop textC3 textC3_no_patDots hlen]
  rw [hlen5000, splitLoop_eval_textC3]
  have hm : markerDots 1 = "\n\n(1/...)".data := by decide
  rw [hm]

/-- Counterexample for claim C2 as stated: for the 4098-character text
`textC2` (4076 `a`, one space, 21 `b`), concatenating the returned segments
with their trailing position markers stripped does not reproduce the original
text — the space at the split boundary was destroyed by `.trim()`. -/
theorem C2_chunker_counterexample :
    ¬ (((splitWhatsAppMessage textC2).map stripMarkerSpec).flatten = textC2) := by
  have hlen4098 : textC2.length = 4098 := by
    unfold textC2
    rw [List.length_append, List.length_cons, List.length_replicate, List.length_replicate]
  have hlen : ¬ textC2.length ≤ WHATSAPP_TEXT_LIMIT := by
    rw [hlen4098]
    unfold WHATSAPP_TEXT_LIMIT
    norm_num
  rw [splitWhatsAppMessage_eq_loop textC2 textC2_no_patDots hlen]
  rw [hlen4098, splitLoop_eval_textC2]
  rw [List.map_cons, List.map_cons, List.map_nil, stripMarkerSpec_marker]
  have h2 : stripMarkerSpec (List.replicate 21 'b') = List.replicate 21 'b' := by decide
  rw [h2]
  intro hcontra
  have hlenc := congrArg List.length hcontra
  rw [hlen4098] at hlenc
  simp only [List.flatten_cons, List.flatten_nil, List.append_nil, List.length_append,
    List.length_replicate] at hlenc
  omega

/-! ## IntentClassifier: `classifyTaskIntent` (whatsapp-webhook/index.ts, lines 713-752) -/

/-- The seven intents of `type TaskIntent`. -/
inductive TaskIntent
  | general_question
  | web_search
  | reasoning
  | planning
  | subscribe
  | unsubscribe
  | request_update
deriving DecidableEq

/-- JavaScript `message.toLowerCase()`, modelled character-wise (faithful on
the ASCII range, which is where all classifier keywords live). -/
def toLowerJS (s : List Char) : List Char := s.map Char.toLower

def kwSubscribe : List Char := "subscribe".data
def kwSignUp : List Char := "sign up".data
def kwThree : List Char := "3".data
def kwUnsubscribe : List Char := "unsubscribe".data
def kwStop : List Char := "stop".data
def kwCancel : List Char := "cancel".data
def kwLatest : List Char := "latest".data
def kwUpdate : List Char := "update".data
def kwNews : List Char := "news".data
def kwOne : List Char := "1".data
def kwHotel : List Char := "hotel".data
def kwRestaurant : List Char := "restaurant".data
def kwWeather : List Char := "weather".data
def kwCurrent : List Char := "current".data
def kwToday : List Char := "today".data
def kwNow : List Char := "now".data
def kwSearchFor : List Char := "search for".data
def kwFindMe : List Char := "find me".data
def kwWhereCanI : List Char := "where can i".data
def kwPlan : List Char := "plan".data
def kwItinerary : List Char := "itinerary".data
def kwSchedule : List Char := "schedule".data
def kwCreateA : List Char := "create a".data
def kwTrip : List Char := "trip".data
def kwRoadmap : List Char := "roadmap".data
def kwStepByStep : List Char := "step by step".data
def kwCalculate : List Char := "calculate".data
def kwSolve : List Char := "solve".data
def kwAnalyze : List Char := "analyze".data
def kwCompare : List Char := "compare".data
def kwWhy : List Char := "why".data
def kwHow : List Char := "how".data
def kwExplain : List Char := "explain".data
def kwDetail : List Char := "detail".data

/-- First guard: `lower.includes('subscribe') || lower.includes('sign up') || lower === '3'`. -/
def condSubscribe (lower : List Char) : Bool :=
  hasSub lower kwSubscribe || hasSub lower kwSignUp || lower == kwThree

/-- Second guard: `lower.includes('unsubscribe') || lower.includes('stop') || lower.includes('cancel')`. -/
def condUnsubscribe (lower : List Char) : Bool :=
  hasSub lower kwUnsubscribe || hasSub lower kwStop || hasSub lower kwCancel

/-- Third guard: `lower.includes('latest') || lower.includes('update') || lower.includes('news') || lower === '1'`. -/
def condUpdate (lower : List Char) : Bool :=
  hasSub lower kwLatest || hasSub lower kwUpdate || hasSub lower kwNews || lower == kwOne

/-- Web-search guard (the nine keyword tests of the fourth `if`). -/
def condWebSearch (lower : List Char) : Bool :=
  hasSub lower kwHotel || hasSub lower kwRestaurant || hasSub lower kwWeather
    || hasSub lower kwCurrent || hasSub lower kwToday || hasSub lower kwNow
    || hasSub lower kwSearchFor || hasSub lower kwFindMe || hasSub lower kwWhereCanI

/-- Planning guard; note that in the source `&&` binds tighter than `||`, so
the condition is `plan || itinerary || schedule || (create a && (trip || roadmap)) || step by step`. -/
def condPlanning (lower : List Char) : Bool :=
  hasSub lower kwPlan || hasSub lower kwItinerary || hasSub lower kwSchedule
    || (hasSub lower kwCreateA && (hasSub lower kwTrip || hasSub lower kwRoadmap))
    || hasSub lower kwStepByStep

/-- Reasoning guard: `calculate || solve || analyze || compare || (why && how) || (explain && detail)`. -/
def condReasoning (lower : List Char) : Bool :=
  hasSub lower kwCalculate || hasSub lower kwSolve || hasSub lower kwAnalyze
    || hasSub lower kwCompare || (hasSub lower kwWhy && hasSub lower kwHow)
    || (hasSub lower kwExplain && hasSub lower kwDetail)

/-- `classifyTaskIntent(message, history)`: the history parameter is accepted
but never used by the source. -/
def classifyTaskIntent (message : List Char) (_history : List (List Char)) : TaskIntent :=
  let lower := toLowerJS message
  if condSubscribe lower then .subscribe
  else if condUnsubscribe lower then .unsubscribe
  else if condUpdate lower then .request_update
  else if condWebSearch lower then .web_search
  else if condPlanning lower then .planning
  else if condReasoning lower then .reasoning
  else .general_question

example : classifyTaskIntent ("Subscribe me to weather updates".data) [] = .subscribe := by decide
example : classifyTaskIntent ("please unsubscribe me".data) [] = .subscribe := by decide
example : classifyTaskIntent ("stop it".data) [] = .unsubscribe := by decide
example : classifyTaskIntent ("Can you plan a 3-day itinerary?".data) [] = .planning := by decide
example : classifyTaskIntent ("hi there".data) [] = .general_question := by decide

theorem hasSub_unsub_imp_sub (l : List Char) (h : hasSub l kwUnsubscribe = true) :
    hasSub l kwSubscribe = true := by
  obtain ⟨u, v, huv⟩ := (hasSub_iff l kwUnsubscribe).mp h
  have hdecomp : kwUnsubscribe = ('u' :: 'n' :: []) ++ kwSubscribe := by decide
  refine (hasSub_iff l kwSubscribe).mpr ⟨u ++ ('u' :: 'n' :: []), v, ?_⟩
  rw [huv, hdecomp]
  simp

/-- Claim C9: the classifier checks the subscribe guard before the domain
heuristics, so any text whose lowercase form contains both `subscribe` and
`weather` is classified `subscribe`, not `web_search`. -/
theorem C9_subscribe_priority (message : List Char) (history : List (List Char))
    (hsub : hasSub (toLowerJS message) kwSubscribe = true)
    (_hwea : hasSub (toLowerJS message) kwWeather = true) :
    classifyTaskIntent message history = TaskIntent.subscribe := by
  unfold classifyTaskIntent
  have hc : condSubscribe (toLowerJS message) = true := by
    simp [condSubscribe, hsub]
  simp [hc]

/-- Witness for C9 at the concrete text `Subscribe me to weather updates`. -/
theorem C9_subscribe_priority_witness :
    classifyTaskIntent ("Subscribe me to weather updates".data) [] = TaskIntent.subscribe :=
  C9_subscribe_priority ("Subscribe me to weather updates".data) [] (by decide) (by decide)

/-- Claim C10: because `unsubscribe` contains `subscribe` as a substring and
the subscribe guard runs first, any text containing `unsubscribe` is
classified `subscribe`, never `unsubscribe`; the `unsubscribe` intent is
returned exactly for texts that contain `stop` or `cancel` while containing
neither `subscribe` nor `sign up` and not being exactly `3`. -/
theorem C10_unsubscribe_shadowed :
    (∀ (message : List Char) (history : List (List Char)),
        hasSub (toLowerJS message) kwUnsubscribe = true →
        classifyTaskIntent message history = TaskIntent.subscribe)
    ∧ (∀ (message : List Char) (history : List (List Char)),
        classifyTaskIntent message history = TaskIntent.unsubscribe ↔
          (hasSub (toLowerJS message) kwSubscribe = false
            ∧ hasSub (toLowerJS message) kwSignUp = false
            ∧ toLowerJS message ≠ kwThree
            ∧ (hasSub (toLowerJS message) kwStop = true
                ∨ hasSub (toLowerJS message) kwCancel = true))) := by
  constructor
  · intro message history h
    have hs := hasSub_unsub_imp_sub _ h
    unfold classifyTaskIntent
    have hc : condSubscribe (toLowerJS message) = true := by
      simp [condSubscribe, hs]
    simp [hc]
  · intro message history
    unfold classifyTaskIntent
    by_cases h1 : condSubscribe (toLowerJS message) = true
    · simp only [h1, if_true]
      constructor
      · intro he; exact absurd he (by decide)
      · rintro ⟨hsub, hsign, hthree, -⟩
        exfalso
        simp [condSubscribe, hsub, hsign] at h1
        exact hthree h1
    · have h1f : condSubscribe (toLowerJS message) = false := by
        rwa [Bool.not_eq_true] at h1
      have hcomp : hasSub (toLowerJS message) kwSubscribe = false
          ∧ hasSub (toLowerJS message) kwSignUp = false
          ∧ ¬ toLowerJS message = kwThree := by
        simpa [condSubscribe, and_assoc] using h1f
      by_cases h2 : condUnsubscribe (toLowerJS message) = true
      · simp only [h1f, Bool.false_eq_true, if_false, h2, if_true]
        constructor
        · intro _
          refine ⟨hcomp.1, hcomp.2.1, hcomp.2.2, ?_⟩
          have h2' : hasSub (toLowerJS message) kwUnsubscribe = true
              ∨ hasSub (toLowerJS message) kwStop = true
              ∨ hasSub (toLowerJS message) kwCancel = true := by
            simpa [condUnsubscribe, or_assoc] using h2
          rcases h2' with hu | hs | hc
          · exact absurd (hasSub_unsub_imp_sub _ hu) (by simp [hcomp.1])
          · exact Or.inl hs
          · exact Or.inr hc
        · intro _; trivial
      · have h2f : condUnsubscribe (toLowerJS message) = false := by
          rwa [Bool.not_eq_true] at h2
        simp only [h1f, h2f, Bool.false_eq_true, if_false]
        constructor
        · intro he
          by_cases h3 : condUpdate (toLowerJS message) = true
          · simp [h3] at he
          · by_cases h4 : condWebSearch (toLowerJS message) = true
            · simp [h3, h4] at he
            · by_cases h5 : condPlanning (toLowerJS message) = true
              · simp [h3, h4, h5] at he
              · by_cases h6 : condReasoning (toLowerJS message) = true
                · simp [h3, h4, h5, h6] at he
                · simp [h3, h4, h5, h6] at he
        · rintro ⟨-, -, -, hsc⟩
          exfalso
          rcases hsc with hstop | hcanc
          · simp [condUnsubscribe, hstop] at h2f
          · simp [condUnsubscribe, hcanc] at h2f

/-- Witness for C10: the text `please unsubscribe me` is classified
`subscribe`, and the text `stop it` satisfies exactly the characterization of
the `unsubscribe` intent. -/
theorem C10_unsubscribe_shadowed_witness :
    classifyTaskIntent ("please unsubscribe me".data) [] = TaskIntent.subscribe
    ∧ classifyTaskIntent ("stop it".data) [] = TaskIntent.unsubscribe :=
  ⟨C10_unsubscribe_shadowed.1 ("please unsubscribe me".data) [] (by decide),
    (C10_unsubscribe_shadowed.2 ("stop it".data) []).mpr
      ⟨by decide, by decide, by decide, Or.inl (by decide)⟩⟩

/-! ## Scheduler: `send-scheduled/index.ts`

The `scheduled_messages` table (migrations, plus the recurrence columns added
by the `ALTER TABLE public.scheduled_messages` migration):
`status`, `scheduled_for`, `recurrence_type`, `recurrence_interval`,
`recurrence_end_date`, `next_run_at`, `sent_at`, `task_prompt`,
`message_content`, `ai_response`, `model_used`.  Timestamps are `Int` epoch
milliseconds. -/

/-- The `status` column values used by the scheduler. -/
inductive SchedStatus
  | pending
  | processing
  | sent
  | failed
deriving DecidableEq

/-- One `scheduled_messages` row. -/
structure ScheduledRow where
  status : SchedStatus
  scheduledFor : Int
  recurrenceType : String
  recurrenceInterval : Option Int
  recurrenceEndDate : Option Int
  nextRunAt : Option Int
  sentAt : Option Int
  taskPrompt : Option String
  messageContent : String
  aiResponse : Option String
  modelUsed : Option String
deriving DecidableEq

/-- The per-row claim step of the scheduler loop:
`.update({ status: 'processing' }).eq('id', msg.id)`. -/
def markProcessing (r : ScheduledRow) : ScheduledRow :=
  { r with status := .processing }

/-- The success update of the scheduler loop:
`.update({ status: 'sent', sent_at: ..., ai_response: msg.task_prompt ?
messageToSend : null, model_used: modelUsed }).eq('id', msg.id)`.  No other
column — in particular neither `next_run_at` nor any `recurrence_*` column —
is touched. -/
def markSentUpdate (now : Int) (messageToSend modelStr : String) (r : ScheduledRow) :
    ScheduledRow :=
  { r with
    status := .sent
    sentAt := some now
    aiResponse := if r.taskPrompt.isSome then some messageToSend else none
    modelUsed := some modelStr }

/-- The failure update of the scheduler loop: `.update({ status: 'failed' })`. -/
def markFailed (r : ScheduledRow) : ScheduledRow :=
  { r with status := .failed }

/-- A concrete `daily` schedule: created by the dashboard with
`scheduled_for = next_run_at = 2025-01-01T09:00Z` (epoch 1735722000000 ms)
and `recurrence_type = 'daily'`. -/
def dailyRow : ScheduledRow :=
  { status := .pending
    scheduledFor := 1735722000000
    recurrenceType := "daily"
    recurrenceInterval := none
    recurrenceEndDate := none
    nextRunAt := some 1735722000000
    sentAt := none
    taskPrompt := none
    messageContent := "Daily weather update"
    aiResponse := none
    modelUsed := none }

/-- Claim C1 (evaluation of the code at the failing input): dispatching the
`daily` row `dailyRow` successfully leaves the row with `status = sent` — not
`pending` — and with `next_run_at` unchanged at the original instant, not
advanced by 24 hours (86400000 ms): the success update of `send-scheduled`
ignores the recurrence columns entirely. -/
theorem C1_daily_dispatch_marks_sent :
    (markSentUpdate 1735722000500 dailyRow.messageContent "direct"
        (markProcessing dailyRow)).status = SchedStatus.sent
    ∧ (markSentUpdate 1735722000500 dailyRow.messageContent "direct"
        (markProcessing dailyRow)).status ≠ SchedStatus.pending
    ∧ (markSentUpdate 1735722000500 dailyRow.messageContent "direct"
        (markProcessing dailyRow)).nextRunAt = some 1735722000000
    ∧ (markSentUpdate 1735722000500 dailyRow.messageContent "direct"
        (markProcessing dailyRow)).nextRunAt ≠ some (1735722000000 + 86400000) := by
  refine ⟨rfl, by decide, rfl, by decide⟩

/-! ## Claim C4: the scheduler claim step under overlapping invocations

The invocation first runs the select
`.select('*').eq('status', 'pending').lte('scheduled_for', now)` and only
afterwards, per fetched row, the update `.update({ status: 'processing' })` —
two separate statements.  Two overlapping invocations are modelled as explicit
state machines over a shared database; the per-row processing (mark
processing, send, mark sent) is collapsed into one atomic step, which only
makes the model more favourable to the claim than the real code. -/

/-- The `scheduled_messages` table: rows keyed by `id`. -/
abbrev SchedDB := List (Nat × ScheduledRow)

/-- The fetch step of `serve`: ids of rows with `status = 'pending'` and
`scheduled_for <= now`. -/
def fetchDue (now : Int) (db : SchedDB) : List Nat :=
  (db.filter (fun p => p.2.status == SchedStatus.pending
    && decide (p.2.scheduledFor ≤ now))).map (fun p => p.1)

/-- Apply `f` to the row with the given id (`.eq('id', id)` update). -/
def updateRow (db : SchedDB) (id : Nat) (f : ScheduledRow → ScheduledRow) : SchedDB :=
  db.map (fun p => if p.1 = id then (p.1, f p.2) else p)

/-- Process one claimed row (success path): mark processing, dispatch the
WhatsApp message, then mark sent. -/
def processDueRow (now : Int) (db : SchedDB) (id : Nat) : SchedDB :=
  updateRow (updateRow db id markProcessing) id
    (fun r => markSentUpdate now r.messageContent "direct" r)

/-- Joint state of the shared table and two overlapping scheduler
invocations A and B.  `invA`/`invB` are `none` before the invocation has run
its select, and `some todo` afterwards, with `todo` the claimed ids still to
process.  `sends` records every outbound WhatsApp dispatch as
(invocation-is-B, row id). -/
structure TwoSchedulerState where
  db : SchedDB
  invA : Option (List Nat)
  invB : Option (List Nat)
  sends : List (Bool × Nat)

/-- One step of invocation A (`isB = false`) or B (`isB = true`): either run
the select, or process the next claimed row. -/
def schedulerStep (now : Int) (isB : Bool) (st : TwoSchedulerState) : TwoSchedulerState :=
  let inv := if isB then st.invB else st.invA
  match inv with
  | none =>
    let claimed := fetchDue now st.db
    if isB then { st with invB := some claimed } else { st with invA := some claimed }
  | some [] => st
  | some (id :: rest) =>
    let st' := { st with db := processDueRow now st.db id, sends := st.sends ++ [(isB, id)] }
    if isB then { st' with invB := some rest } else { st' with invA := some rest }

/-- Run a finite interleaving schedule (`false` = step of A, `true` = step of B). -/
def runScheduler (now : Int) (steps : List Bool) (st : TwoSchedulerState) : TwoSchedulerState :=
  steps.foldl (fun s tag => schedulerStep now tag s) st

/-- A single due row: pending, scheduled for the past. -/
def dueRow : ScheduledRow :=
  { status := .pending
    scheduledFor := 0
    recurrenceType := "once"
    recurrenceInterval := none
    recurrenceEndDate := none
    nextRunAt := none
    sentAt := none
    taskPrompt := none
    messageContent := "Reminder"
    aiResponse := none
    modelUsed := none }

/-- Initial state: one due row, neither invocation has run its select yet. -/
def twoSchedInit : TwoSchedulerState :=
  { db := [(1, dueRow)], invA := none, invB := none, sends := [] }

/-- Claim C4 (evaluation of the failing interleaving): under the interleaving
`A.select, B.select, A.process, B.process` both invocations claim row 1 and
the row is dispatched twice — once by each invocation.  A claim executed as a
single conditional update could not produce a second send. -/
theorem C4_overlapping_invocations_double_send :
    (runScheduler 5 [false, true, false, true] twoSchedInit).sends
      = [(false, 1), (true, 1)]
    ∧ ((runScheduler 5 [false, true, false, true] twoSchedInit).sends.filter
        (fun s => s.2 == 1)).length = 2 := by
  constructor <;> rfl

/-! ## Claim C6: deduplication in `processMessage` (whatsapp-webhook/index.ts)

The schema (`CREATE TABLE public.whatsapp_messages`) declares `message_id
TEXT` with no UNIQUE constraint, so inserts always succeed and the
`insertError.code === '23505'` duplicate-key branch of `processMessage` is
unreachable.  Deduplication is a separate `isDuplicateMessage` lookup followed
by an insert.  Two deliveries of the same message id are modelled as state
machines over the shared table. -/

/-- A `whatsapp_messages` row (the columns relevant to deduplication). -/
structure MsgRow where
  phoneNumber : String
  sender : String
  messageContent : String
  messageId : Option String
deriving DecidableEq

/-- The `whatsapp_messages` table. -/
abbrev MsgDB := List MsgRow

/-- `isDuplicateMessage(supabase, messageId)`:
`if (!messageId) return false;` then
`.select('id').eq('message_id', messageId).limit(1)` and `data.length > 0`. -/
def isDuplicateMessage (db : MsgDB) (messageId : String) : Bool :=
  if messageId == "" then false
  else !(db.filter (fun r => r.messageId == some messageId)).isEmpty

/-- Joint state for two deliveries of the same inbound message.  Each
invocation advances through phases: 0 = before the duplicate check, 1 = will
insert the user row, 2 = will insert the assistant row, 3 = finished
(or abandoned after a positive duplicate check). -/
structure TwoWebhookState where
  db : MsgDB
  phaseA : Nat
  phaseB : Nat

/-- One step of one delivery invocation: phase 0 runs `isDuplicateMessage`
and abandons on a hit; phase 1 inserts the user-turn row (the schema has no
uniqueness constraint, so the insert always succeeds); phase 2 inserts the
assistant-reply row (stored without a message id in the source). -/
def webhookStep (phone msgContent mid reply : String) (isB : Bool)
    (st : TwoWebhookState) : TwoWebhookState :=
  let phase := if isB then st.phaseB else st.phaseA
  let setPhase : TwoWebhookState → Nat → TwoWebhookState := fun st' p =>
    if isB then { st' with phaseB := p } else { st' with phaseA := p }
  if phase = 0 then
    if isDuplicateMessage st.db mid then setPhase st 3 else setPhase st 1
  else if phase = 1 then
    setPhase { st with db := st.db ++ [⟨phone, "user", msgContent, some mid⟩] } 2
  else if phase = 2 then
    setPhase { st with db := st.db ++ [⟨phone, "assistant", reply, none⟩] } 3
  else st

/-- Run an interleaving of the two deliveries. -/
def runWebhookPair (phone msgContent mid reply : String) (steps : List Bool)
    (st : TwoWebhookState) : TwoWebhookState :=
  steps.foldl (fun s tag => webhookStep phone msgContent mid reply tag s) st

/-- Claim C6 (evaluation at the failing interleaving): two concurrent
deliveries of the same message id `wamid.1` that both pass the duplicate
check before either inserts produce TWO stored user-turn rows for that id and
TWO assistant replies; a sequential redelivery (second conjunct) is abandoned
and leaves exactly one of each, showing the dedup is only a non-atomic
read-then-insert, not a storage-level constraint. -/
theorem C6_duplicate_delivery_two_rows :
    (((runWebhookPair "15551234567" "hello" "wamid.1" "Hi!"
        [false, true, false, false, true, true]
        ⟨[], 0, 0⟩).db.filter
          (fun r => r.messageId == some "wamid.1" && r.sender == "user")).length = 2
      ∧ ((runWebhookPair "15551234567" "hello" "wamid.1" "Hi!"
        [false, true, false, false, true, true]
        ⟨[], 0, 0⟩).db.filter (fun r => r.sender == "assistant")).length = 2)
    ∧ (((runWebhookPair "15551234567" "hello" "wamid.1" "Hi!"
        [false, false, false, true, true, true]
        ⟨[], 0, 0⟩).db.filter
          (fun r => r.messageId == some "wamid.1" && r.sender == "user")).length = 1
      ∧ ((runWebhookPair "15551234567" "hello" "wamid.1" "Hi!"
        [false, false, false, true, true, true]
        ⟨[], 0, 0⟩).db.filter (fun r => r.sender == "assistant")).length = 1) := by
  refine ⟨⟨rfl, rfl⟩, ⟨rfl, rfl⟩⟩

/-! ## Claim C8: `trackUsage` (send-scheduled/index.ts, lines 184-215)

`trackUsage` first selects the (provider, model, date) row with `.single()`,
then either updates it with `request_count: existing.request_count + 1` —
using the value read earlier — or inserts a fresh row with count 1.  The
schema declares `UNIQUE(provider, model, date)` on `ai_usage`, but the
read-then-write update is not atomic.  Two concurrent invocations are
modelled as read/write state machines over the shared table. -/

/-- An `ai_usage` row.  `estimated_cost_usd` is kept as an integer number of
cost units to avoid floating point; only additions occur. -/
structure UsageRow where
  id : Nat
  provider : String
  model : String
  date : String
  requestCount : Nat
  estimatedCostUsd : Int
deriving DecidableEq

/-- The `ai_usage` table. -/
abbrev UsageDB := List UsageRow

/-- The select of `trackUsage`:
`.select('*').eq('provider', p).eq('model', m).eq('date', d).single()`. -/
def findUsage (db : UsageDB) (provider model date : String) : Option UsageRow :=
  (db.filter (fun r => r.provider == provider && r.model == model && r.date == date)).head?

/-- Phase of one `trackUsage` invocation: before the select, after the select
(carrying the row snapshot it read), or done. -/
inductive TrackPhase
  | start
  | readDone (found : Option UsageRow)
  | done
deriving DecidableEq

/-- Joint state of the `ai_usage` table and two `trackUsage` invocations. -/
structure TwoUsageState where
  db : UsageDB
  phA : TrackPhase
  phB : TrackPhase

/-- One step of one `trackUsage` invocation.  The write step uses the
snapshot taken by the read step — `request_count: existing.request_count + 1`
and `estimated_cost_usd: existing.estimated_cost_usd + estimatedCost` — which
is exactly the lost-update shape of the source.  When the select found
nothing, a fresh row is inserted with `request_count: 1`. -/
def trackUsageStep (provider model date : String) (estimatedCost : Int) (isB : Bool)
    (st : TwoUsageState) : TwoUsageState :=
  let ph := if isB then st.phB else st.phA
  let setPh : TwoUsageState → TrackPhase → TwoUsageState := fun st' p =>
    if isB then { st' with phB := p } else { st' with phA := p }
  match ph with
  | .start => setPh st (.readDone (findUsage st.db provider model date))
  | .readDone (some existing) =>
    setPh { st with db := st.db.map (fun r =>
      if r.id = existing.id then
        { r with requestCount := existing.requestCount + 1,
                 estimatedCostUsd := existing.estimatedCostUsd + estimatedCost }
      else r) } .done
  | .readDone none =>
    setPh { st with db := st.db ++
      [⟨1000 + st.db.length, provider, model, date, 1, estimatedCost⟩] } .done
  | .done => st

/-- Run an interleaving of the two `trackUsage` invocations. -/
def runTrackUsage (provider model date : String) (estimatedCost : Int) (steps : List Bool)
    (st : TwoUsageState) : TwoUsageState :=
  steps.foldl (fun s tag => trackUsageStep provider model date estimatedCost tag s) st

/-- Claim C8 (evaluation at the failing interleaving): starting from a counter
row with `request_count = 5`, the interleaving `A.read, B.read, A.write,
B.write` leaves `request_count = 6` — one of the two increments is lost — and
not the 7 an atomic upsert-with-increment would guarantee. -/
theorem C8_usage_lost_update :
    (runTrackUsage "openai" "gpt-4o" "2026-02-03" 0 [false, true, false, true]
        ⟨[⟨1, "openai", "gpt-4o", "2026-02-03", 5, 0⟩], .start, .start⟩).db
      = [⟨1, "openai", "gpt-4o", "2026-02-03", 6, 0⟩]
    ∧ ¬ ((runTrackUsage "openai" "gpt-4o" "2026-02-03" 0 [false, true, false, true]
        ⟨[⟨1, "openai", "gpt-4o", "2026-02-03", 5, 0⟩], .start, .start⟩).db
      = [⟨1, "openai", "gpt-4o", "2026-02-03", 7, 0⟩]) := by
  refine ⟨rfl, by decide⟩

/-! ## ProviderRouter: the two `executeAIRequest` functions

Both edge functions define an `executeAIRequest`.  The webhook version
(whatsapp-webhook/index.ts, lines 195-361) retries once on a transient status
— only on the OpenAI-compatible path — and has no fallback (its
`ProviderConfig` carries no fallback fields).  The scheduler version
(send-scheduled/index.ts, lines 28-160) never retries but falls back once on
any failure.  HTTP exchanges are modelled by passing the provider responses
in as explicit values; each function additionally returns the list of
requests it issued (provider, model, max_tokens), so that retry/fallback
counts are part of the result. -/

/-- `type AIProvider`. -/
inductive AIProvider
  | lovable
  | openrouter
  | openai
  | anthropic
  | gemini
deriving DecidableEq

/-- An upstream HTTP response: `ok`, `status`, and the extracted completion
text (the JSON field access `data.choices[0].message.content` etc. is
collapsed into `content`). -/
structure HttpResp where
  ok : Bool
  status : Nat
  content : String
deriving DecidableEq

/-- One issued provider request: which provider/model was called and with
which `max_tokens` budget. -/
structure AIRequest where
  provider : AIProvider
  model : String
  maxTokens : Nat
deriving DecidableEq

/-- The transient-status test of the webhook retry:
`response.status === 429 || response.status === 503 || response.status === 504`. -/
def transientStatus (s : Nat) : Bool := s == 429 || s == 503 || s == 504

/-- The webhook `ProviderConfig` (no fallback fields). -/
structure WebhookProviderConfig where
  provider : AIProvider
  model : String
  apiKey : Option String

/-- Whether the provider uses the OpenAI-compatible chat-completions shape
(the `else` branch of the webhook `executeAIRequest`). -/
def isOpenAICompat : AIProvider → Bool
  | .lovable => true
  | .openrouter => true
  | .openai => true
  | .anthropic => false
  | .gemini => false

/-- Error mapping after the (possibly retried) OpenAI-compatible call of the
webhook `executeAIRequest`: 429/402/401 produce user-facing messages, any
other failure throws and is caught as the generic error reply. -/
def webhookFinish (model : String) (r : HttpResp) : String × String :=
  if r.ok then (r.content, model)
  else if r.status == 429 then ("Rate limit reached. Please try again shortly.", model)
  else if r.status == 402 then ("API credits exhausted. Please check your account.", model)
  else if r.status == 401 then ("Invalid API key. Please check your settings.", model)
  else ("An error occurred. Please try again.", model)

/-- The webhook `executeAIRequest(providerConfig, lovableApiKey, messages,
maxTokens)`.  `oracle` supplies the upstream responses in call order.  The
result pairs the returned `{response, model}` with the issued request list.
The Anthropic and Gemini branches issue a single request and, on any failure,
throw into the outer catch (generic error reply); the OpenAI-compatible
branch retries exactly once on 429/503/504 with `max_tokens:
Math.min(maxTokens, 400)`. -/
def webhookExecuteAIRequest (cfg : WebhookProviderConfig) (_lovableApiKey : String)
    (maxTokens : Nat) (oracle : List HttpResp) : (String × String) × List AIRequest :=
  let dflt : HttpResp := ⟨false, 500, ""⟩
  let keyAvailable := cfg.provider == AIProvider.lovable || cfg.apiKey.isSome
  if !keyAvailable then
    (("API key not configured. Please add your API key in Settings.", cfg.model), [])
  else if cfg.provider == AIProvider.anthropic || cfg.provider == AIProvider.gemini then
    let r := oracle.getD 0 dflt
    if r.ok then ((r.content, cfg.model), [⟨cfg.provider, cfg.model, maxTokens⟩])
    else (("An error occurred. Please try again.", cfg.model),
      [⟨cfg.provider, cfg.model, maxTokens⟩])
  else
    let r1 := oracle.getD 0 dflt
    if !r1.ok && transientStatus r1.status then
      let r2 := oracle.getD 1 dflt
      (webhookFinish cfg.model r2,
        [⟨cfg.provider, cfg.model, maxTokens⟩, ⟨cfg.provider, cfg.model, min maxTokens 400⟩])
    else
      (webhookFinish cfg.model r1, [⟨cfg.provider, cfg.model, maxTokens⟩])

/-- The scheduler `ProviderConfig`, with the optional fallback fields. -/
structure SchedProviderConfig where
  provider : AIProvider
  model : String
  apiKey : Option String
  fallbackProvider : Option AIProvider
  fallbackModel : Option String
  fallbackApiKey : Option String

/-- The result record of the scheduler `executeAIRequest`. -/
structure SchedAIResult where
  response : String
  model : String
  provider : AIProvider
deriving DecidableEq

/-- One attempt of the scheduler `executeAIRequest` (`useFallback` selects
primary or fallback provider/model/key exactly as the three ternary
expressions at the top of the source function).  Any non-ok response throws
(`if (!response.ok) throw ...`), modelled as `Except.error`; a missing API
key for a non-lovable provider also throws, before any request is issued. -/
def schedAttempt (cfg : SchedProviderConfig) (lovableApiKey : String) (maxTokens : Nat)
    (useFallback : Bool) (resp : HttpResp) : Except String SchedAIResult × List AIRequest :=
  let provider := match useFallback, cfg.fallbackProvider with
    | true, some p => p
    | _, _ => cfg.provider
  let model := match useFallback, cfg.fallbackModel with
    | true, some m => m
    | _, _ => cfg.model
  let apiKey := match useFallback, cfg.fallbackApiKey with
    | true, some k => some k
    | _, _ => if provider == AIProvider.lovable then some lovableApiKey else cfg.apiKey
  if apiKey.isNone && !(provider == AIProvider.lovable) then
    (Except.error "No API key configured", [])
  else if resp.ok then
    (Except.ok ⟨resp.content, model, provider⟩, [⟨provider, model, maxTokens⟩])
  else
    (Except.error "provider error", [⟨provider, model, maxTokens⟩])

/-- The scheduler `executeAIRequest(config, lovableApiKey, messages,
maxTokens, useFallback = false)`: one primary attempt; on any caught error,
if `config.fallback_provider` is set, a single recursive call with
`useFallback = true` (which cannot recurse again); otherwise the error
propagates.  Note there is no retry of the primary and `maxTokens` is passed
to the fallback unreduced. -/
def schedExecuteAIRequest (cfg : SchedProviderConfig) (lovableApiKey : String)
    (maxTokens : Nat) (primaryResp fallbackResp : HttpResp) :
    Except String SchedAIResult × List AIRequest :=
  match schedAttempt cfg lovableApiKey maxTokens false primaryResp with
  | (Except.ok r, reqs) => (Except.ok r, reqs)
  | (Except.error e, reqs) =>
    if cfg.fallbackProvider.isSome then
      let second := schedAttempt cfg lovableApiKey maxTokens true fallbackResp
      (second.1, reqs ++ second.2)
    else
      (Except.error e, reqs)

/-- The concrete configuration of the C5 counterexample: primary `lovable`
with a configured `openrouter` fallback. -/
def c5Config : SchedProviderConfig :=
  { provider := .lovable
    model := "google/gemini-2.5-flash-lite"
    apiKey := none
    fallbackProvider := some .openrouter
    fallbackModel := some "fallback-model"
    fallbackApiKey := some "sk-fallback" }

/-- Counterexample for claim C5 as stated: with a fallback configured and the
primary call failing with 429 (a transient status), the claim requires one
immediate retry of the primary before falling back — i.e. exactly two primary
requests.  The scheduler router issues exactly ONE primary request (and one
fallback request): there is no retry at all. -/
theorem C5_router_counterexample :
    ¬ ((((schedExecuteAIRequest c5Config "LOVKEY" 800 ⟨false, 429, ""⟩ ⟨true, 200, "ok"⟩).2.filter
          (fun q => q.provider == AIProvider.lovable)).length = 2)
        ∧ (((schedExecuteAIRequest c5Config "LOVKEY" 800 ⟨false, 429, ""⟩ ⟨true, 200, "ok"⟩).2.filter
          (fun q => q.provider == AIProvider.openrouter)).length = 1)) := by
  decide

/-- Claim C5 (amended): the retry/fallback behaviour the code actually has.
(1) In the webhook router, on the OpenAI-compatible path with a usable key, a
first response with a transient status (429/503/504) leads to exactly two
requests, the second with the reduced budget `min(maxTokens, 400)`; (2) a
successful first response leads to exactly one request; (3) the Anthropic and
Gemini paths issue exactly one request — no retry — whatever the response;
the webhook router has no fallback at all (its config type has no fallback
fields).  (4) In the scheduler router, ANY primary failure (transient or not)
with a fully configured fallback leads to exactly one primary request and
exactly one fallback request — no retry of the primary, no budget reduction,
and no further cascading whatever the fallback response. -/
theorem C5_router_retry_fallback_amended :
    (∀ (cfg : WebhookProviderConfig) (lovKey : String) (maxTok : Nat) (oracle : List HttpResp),
        isOpenAICompat cfg.provider = true →
        (cfg.provider == AIProvider.lovable || cfg.apiKey.isSome) = true →
        (oracle.getD 0 ⟨false, 500, ""⟩).ok = false →
        transientStatus (oracle.getD 0 ⟨false, 500, ""⟩).status = true →
        (webhookExecuteAIRequest cfg lovKey maxTok oracle).2
          = [⟨cfg.provider, cfg.model, maxTok⟩, ⟨cfg.provider, cfg.model, min maxTok 400⟩])
    ∧ (∀ (cfg : WebhookProviderConfig) (lovKey : String) (maxTok : Nat) (oracle : List HttpResp),
        isOpenAICompat cfg.provider = true →
        (cfg.provider == AIProvider.lovable || cfg.apiKey.isSome) = true →
        (oracle.getD 0 ⟨false, 500, ""⟩).ok = true →
        (webhookExecuteAIRequest cfg lovKey maxTok oracle).2
          = [⟨cfg.provider, cfg.model, maxTok⟩])
    ∧ (∀ (cfg : WebhookProviderConfig) (lovKey : String) (maxTok : Nat) (oracle : List HttpResp),
        (cfg.provider == AIProvider.anthropic || cfg.provider == AIProvider.gemini) = true →
        cfg.apiKey.isSome = true →
        (webhookExecuteAIRequest cfg lovKey maxTok oracle).2
          = [⟨cfg.provider, cfg.model, maxTok⟩])
    ∧ (∀ (cfg : SchedProviderConfig) (lovKey : String) (maxTok : Nat)
          (rp rf : HttpResp) (fp : AIProvider) (fm fk : String),
        rp.ok = false →
        cfg.fallbackProvider = some fp →
        cfg.fallbackModel = some fm →
        cfg.fallbackApiKey = some fk →
        (cfg.provider == AIProvider.lovable || cfg.apiKey.isSome) = true →
        (schedExecuteAIRequest cfg lovKey maxTok rp rf).2
          = [⟨cfg.provider, cfg.model, maxTok⟩, ⟨fp, fm, maxTok⟩]) := by
  refine ⟨?_, ?_, ?_, ?_⟩
  · intro cfg lovKey maxTok oracle h1 h2 h3 h4
    obtain ⟨p, m, k⟩ := cfg
    cases p <;> simp_all [webhookExecuteAIRequest, isOpenAICompat]
  · intro cfg lovKey maxTok oracle h1 h2 h3
    obtain ⟨p, m, k⟩ := cfg
    cases p <;> simp_all [webhookExecuteAIRequest, isOpenAICompat]
  · intro cfg lovKey maxTok oracle h1 h2
    obtain ⟨p, m, k⟩ := cfg
    rcases Option.isSome_iff_exists.mp h2 with ⟨k', hk⟩
    subst hk
    cases p <;> simp_all [webhookExecuteAIRequest]
    · split <;> rfl
    · split <;> rfl
  · intro cfg lovKey maxTok rp rf fp fm fk hok hfp hfm hfk hkey
    obtain ⟨p, m, k, fpo, fmo, fko⟩ := cfg
    simp only at hfp hfm hfk hkey
    subst hfp hfm hfk
    by_cases hp : p = AIProvider.lovable
    · subst hp
      simp [schedExecuteAIRequest, schedAttempt, hok]
      cases hr : rf.ok <;> simp [hr]
    · have hkk : k.isSome = true := by
        have hpb : (p == AIProvider.lovable) = false := by
          simpa using hp
        simpa [hpb] using hkey
      rcases Option.isSome_iff_exists.mp hkk with ⟨k', hk⟩
      subst hk
      have hpb : (p == AIProvider.lovable) = false := by
        simpa using hp
      simp [schedExecuteAIRequest, schedAttempt, hok, hpb]
      cases hr : rf.ok <;> simp [hr]

/-- Witness for C5 (amended): concrete instantiations of the webhook-retry
conjunct and the scheduler-fallback conjunct. -/
theorem C5_router_retry_fallback_amended_witness :
    (webhookExecuteAIRequest ⟨AIProvider.lovable, "m1", none⟩ "LK" 800
        [⟨false, 429, ""⟩, ⟨true, 200, "ok"⟩]).2
      = [⟨AIProvider.lovable, "m1", 800⟩, ⟨AIProvider.lovable, "m1", min 800 400⟩]
    ∧ (schedExecuteAIRequest c5Config "LK" 800 ⟨false, 429, ""⟩ ⟨true, 200, "ok"⟩).2
      = [⟨AIProvider.lovable, "google/gemini-2.5-flash-lite", 800⟩,
         ⟨AIProvider.openrouter, "fallback-model", 800⟩] :=
  ⟨C5_router_retry_fallback_amended.1 ⟨AIProvider.lovable, "m1", none⟩ "LK" 800
      [⟨false, 429, ""⟩, ⟨true, 200, "ok"⟩] (by decide) (by decide) (by decide) (by decide),
    C5_router_retry_fallback_amended.2.2.2 c5Config "LK" 800 ⟨false, 429, ""⟩ ⟨true, 200, "ok"⟩
      AIProvider.openrouter "fallback-model" "sk-fallback" (by decide) rfl rfl rfl (by decide)⟩

/-! ## WebhookIngestor boundary: `serve` (whatsapp-webhook/index.ts, lines 594-711)

The HTTP handler is modelled as a pure function from the request and the
environment to the response status code.  The HMAC-SHA256 computation is an
abstract parameter `hmacHex : secret → payload → hex digest` (the handler
only compares its output for equality); `jsonParses` abstracts whether
`JSON.parse(rawBody)` succeeds.  The detached background task is spawned
after the final `return 200` decision and cannot influence the status. -/

/-- Helper for `jsSplit`: fuel-based scan (fuel `s.length + 1` always
suffices, since every step consumes at least one character of `s`). -/
def jsSplitAux (sep : List Char) : Nat → List Char → List Char → List (List Char)
  | 0, cur, _ => [cur.reverse]
  | fuel + 1, cur, s =>
    if !sep.isEmpty && sep.isPrefixOf s then
      cur.reverse :: jsSplitAux sep fuel [] (s.drop sep.length)
    else
      match s with
      | [] => [cur.reverse]
      | c :: rest => jsSplitAux sep fuel (c :: cur) rest

/-- JavaScript `s.split(sep)` for a non-empty string separator. -/
def jsSplit (sep s : String) : List String :=
  (jsSplitAux sep.data (s.data.length + 1) [] s.data).map (fun l => String.mk l)

example : jsSplit "sha256=" "sha256=abc" = ["", "abc"] := by decide
example : jsSplit "sha256=" "nope" = ["nope"] := by decide

/-- `verifyWebhookSignature(payload, signature, appSecret)`: reject a missing
header; take `signature.split('sha256=')[1]`; reject when that element is
absent or empty (falsy); otherwise compare the hex HMAC of the payload under
`appSecret` with the supplied hash. -/
def verifyWebhookSignature (hmacHex : String → String → String) (payload : String)
    (signature : Option String) (appSecret : String) : Bool :=
  match signature with
  | none => false
  | some sig =>
    match (jsSplit "sha256=" sig).get? 1 with
    | none => false
    | some signatureHash =>
      if signatureHash == "" then false
      else hmacHex appSecret payload == signatureHash

/-- HTTP request methods distinguished by the handler. -/
inductive HttpMethod
  | GET
  | POST
  | OPTIONS
  | other
deriving DecidableEq

/-- The parts of the incoming request the handler inspects. -/
structure WebhookRequest where
  method : HttpMethod
  rawBody : String
  sigHeader : Option String
  hubMode : Option String
  hubToken : Option String
  hubChallenge : Option String

/-- The environment variables the handler reads. -/
structure WebhookEnv where
  verifyToken : Option String
  appSecret : Option String
  supabaseUrl : Option String
  supabaseKey : Option String
  lovableApiKey : Option String
  whatsappAccessToken : Option String
  whatsappPhoneNumberId : Option String

/-- The `serve` handler of the webhook, returning the HTTP status code:
OPTIONS → 200; GET → 200 on a successful verification handshake, else 403;
non-POST → 200; POST → 200 when `WHATSAPP_APP_SECRET` is unset, 401 when the
signature fails to verify, and 200 in every other case (unparseable JSON,
missing environment variables, and the processing path — the background task
is detached and `return 200` happens immediately). -/
def webhookServe (hmacHex : String → String → String) (jsonParses : String → Bool)
    (env : WebhookEnv) (req : WebhookRequest) : Nat :=
  match req.method with
  | .OPTIONS => 200
  | .GET =>
    let tokenMatches := match req.hubToken, env.verifyToken with
      | some t, some v => t == v
      | _, _ => false
    if req.hubMode == some "subscribe" && tokenMatches then 200 else 403
  | .other => 200
  | .POST =>
    match env.appSecret with
    | none => 200
    | some secret =>
      if verifyWebhookSignature hmacHex req.rawBody req.sigHeader secret then
        if !jsonParses req.rawBody then 200
        else if env.supabaseUrl.isNone || env.supabaseKey.isNone
            || env.lovableApiKey.isNone || env.whatsappAccessToken.isNone
            || env.whatsappPhoneNumberId.isNone then 200
        else 200
      else 401

/-- Claim C7: a POST delivery is answered 200 or 401, and 401 occurs exactly
when an app secret is configured and the signature is missing or mismatched;
every other condition — unparseable JSON, missing configuration, whatever the
background processing does — yields 200. -/
theorem C7_post_always_ok_except_bad_signature
    (hmacHex : String → String → String) (jsonParses : String → Bool)
    (env : WebhookEnv) (req : WebhookRequest) (hm : req.method = HttpMethod.POST) :
    (webhookServe hmacHex jsonParses env req = 200
      ∨ webhookServe hmacHex jsonParses env req = 401)
    ∧ (webhookServe hmacHex jsonParses env req = 401 ↔
        ∃ secret, env.appSecret = some secret
          ∧ verifyWebhookSignature hmacHex req.rawBody req.sigHeader secret = false) := by
  unfold webhookServe
  rw [hm]
  cases hsec : env.appSecret with
  | none =>
    refine ⟨Or.inl rfl, ?_⟩
    simp
  | some secret =>
    by_cases hv : verifyWebhookSignature hmacHex req.rawBody req.sigHeader secret = true
    · constructor
      · by_cases hj : jsonParses req.rawBody <;> simp [hv, hj]
      · constructor
        · intro he
          exfalso
          by_cases hj : jsonParses req.rawBody <;> simp [hv, hj] at he
        · rintro ⟨s, hs, hvf2⟩
          injection hs with hseq
          subst hseq
          rw [hv] at hvf2
          exact absurd hvf2 (by decide)
    · have hvf : verifyWebhookSignature hmacHex req.rawBody req.sigHeader secret = false := by
        rwa [Bool.not_eq_true] at hv
      refine ⟨Or.inr (by simp [hvf]), ?_⟩
      simp only [hvf, Bool.false_eq_true, if_false]
      constructor
      · intro _
        exact ⟨secret, rfl, hvf⟩
      · intro _
        trivial

/-- Witness for C7: a concrete POST request with no signature header against
a configured secret is answered 401 (and nothing else), matching the
characterization. -/
theorem C7_post_always_ok_except_bad_signature_witness :
    (webhookServe (fun _ _ => "00") (fun _ => true)
        ⟨some "tok", some "secret", some "u", some "k", some "l", some "t", some "p"⟩
        ⟨HttpMethod.POST, "payload", none, none, none, none⟩ = 200
      ∨ webhookServe (fun _ _ => "00") (fun _ => true)
        ⟨some "tok", some "secret", some "u", some "k", some "l", some "t", some "p"⟩
        ⟨HttpMethod.POST, "payload", none, none, none, none⟩ = 401) :=
  (C7_post_always_ok_except_bad_signature (fun _ _ => "00") (fun _ => true)
    ⟨some "tok", some "secret", some "u", some "k", some "l", some "t", some "p"⟩
    ⟨HttpMethod.POST, "payload", none, none, none, none⟩ rfl).1
